import Mathlib

/-!
Verification of the deviation detection and compression pipeline of this
repository against its specification.

The JavaScript backend (controllers and services under `backend/src`) is
embedded directly from its source.  The Python ai-service modules
(`sequence_checker.py`, `rule_validator.py`, `data_cleaner.py`,
`intelligent_sampler.py`) are not part of the repository snapshot; they are
modelled from the specification and from the repository's own design
documents (`DEVIATION_DETECTION_EXPLAINED.md`, the Phase 1/Phase 2
implementation summaries), as noted on each such definition.
-/

namespace VsDemo

/-! ## Column mapping service (`backend/src/services/column-mapping.service.js`) -/

/-- The five core required system fields of `validateMapping`
(`column-mapping.service.js`, `requiredFields`). -/
def requiredFields : List String :=
  ["case_id", "officer_id", "step_name", "action", "timestamp"]

/-- The extended optional system fields of `validateMapping`
(`column-mapping.service.js`, `optionalFields`). -/
def optionalFields : List String :=
  ["duration_seconds", "status", "notes", "comments",
   "application_id", "loan_id", "customer_id", "customer_name", "customer_segment",
   "customer_type", "customer_risk_rating",
   "group_id", "related_party_flag", "staff_flag", "portfolio_id",
   "product_type", "sub_product_type", "scheme_code", "secured_unsecured_flag",
   "channel", "branch_code", "branch_name", "region", "geo_code",
   "loan_amount_requested", "loan_amount_sanctioned", "loan_amount_disbursed",
   "interest_rate", "interest_type", "processing_fee", "other_charges",
   "tenor_months", "tenor_days", "repayment_frequency", "emi_amount",
   "ltv_ratio", "margin_pct", "total_group_exposure", "customer_total_exposure",
   "credit_score_bureau", "credit_score_internal", "scorecard_version", "score_band",
   "emi_to_income_ratio", "dti_ratio", "risk_grade", "risk_category",
   "collateral_type", "collateral_description", "collateral_value", "collateral_value_date",
   "valuation_status", "valuation_firm_id", "security_created_flag", "security_perfected_flag",
   "kyc_status", "kyc_completed_flag", "kyc_date", "kyc_mode",
   "sanctions_hit_flag", "watchlist_hit_flag", "pep_flag", "aml_risk_rating",
   "step_id", "stage_name", "workflow_version", "action_type", "sub_status",
   "officer_name", "officer_role", "approval_role", "approval_level",
   "timestamp_start", "timestamp_end", "step_time", "business_date",
   "queue_name", "queue_priority", "sla_target_timestamp", "sla_breach_flag",
   "approver_id", "approver_role", "approval_decision", "approval_timestamp",
   "exception_flag", "exception_reason", "exception_approver_id",
   "override_flag", "override_reason", "override_approver_id",
   "disbursement_date", "disbursement_amount", "disbursement_mode",
   "mandate_status", "first_emi_date", "statement_generated_flag",
   "post_disbursement_qc_flag", "post_disbursement_qc_date", "qc_findings",
   "overdue_days", "bucket", "collection_status", "collection_agent_id",
   "restructure_flag", "restructure_date", "restructure_type",
   "writeoff_flag", "writeoff_amount", "writeoff_date",
   "created_by", "created_at", "updated_by", "updated_at",
   "source_system", "source_file_name", "import_batch_id",
   "audit_trail_id", "log_level", "error_code", "error_message"]

/-- Result record of `validateMapping`. -/
structure ValidationResult where
  isValid : Bool
  missingFields : List String
  presentOptionalFields : List String
  optionalFieldCount : Nat
  totalSupportedFields : Nat
  deriving Repr, DecidableEq

/-- Function `validateMapping` from `column-mapping.service.js`: a column mapping is a
map from CSV column names to system field names (embedded as an association
list, JS object keys being unique); validity requires every required field to
occur among the mapped values, and `missingFields` lists the absent required
fields. -/
def validateMapping (mapping : List (String × String)) : ValidationResult :=
  let mappedFields := mapping.map Prod.snd
  let missingFields := requiredFields.filter (fun f => !mappedFields.contains f)
  let presentOptionalFields := optionalFields.filter (fun f => mappedFields.contains f)
  { isValid := missingFields.isEmpty
    missingFields := missingFields
    presentOptionalFields := presentOptionalFields
    optionalFieldCount := presentOptionalFields.length
    totalSupportedFields := requiredFields.length + optionalFields.length }

set_option maxRecDepth 4000 in
/-- The optional-field vocabulary is disjoint from the required fields. -/
theorem optional_not_required : ∀ f ∈ optionalFields, f ∉ requiredFields := by decide

/-- C10: `validateMapping` accepts a mapping iff every one of the five required
system fields occurs among the mapped values; the missing-field report lists
exactly the absent required fields; and adding a column mapped to any optional
field never changes validity. -/
theorem validateMapping_required_iff (mapping : List (String × String)) :
    ((validateMapping mapping).isValid = true ↔
      ∀ f ∈ requiredFields, f ∈ mapping.map Prod.snd) ∧
    (validateMapping mapping).missingFields
      = requiredFields.filter (fun f => !(mapping.map Prod.snd).contains f) ∧
    (∀ c f, f ∈ optionalFields →
      (validateMapping ((c, f) :: mapping)).isValid = (validateMapping mapping).isValid) := by
  refine ⟨?_, rfl, ?_⟩
  · simp only [validateMapping, List.isEmpty_iff, List.filter_eq_nil_iff]
    constructor
    · intro h f hf
      have := h f hf
      simpa using this
    · intro h f hf
      simpa using h f hf
  · intro c f hf
    have hfr : f ∉ requiredFields := optional_not_required f hf
    have hcongr : requiredFields.filter (fun g => !((f :: mapping.map Prod.snd).contains g))
        = requiredFields.filter (fun g => !((mapping.map Prod.snd).contains g)) := by
      apply List.filter_congr
      intro g hg
      have hne : g ≠ f := fun hEq => hfr (hEq ▸ hg)
      simp [List.contains_cons, hne]
    simp only [validateMapping, List.map_cons]
    rw [hcongr]

/-- Witness for C10 at a concrete mapping: the five required fields mapped makes
the mapping valid, and adding a `notes` column keeps it valid. -/
theorem validateMapping_required_iff_witness :
    (validateMapping [("Case", "case_id"), ("Officer", "officer_id"),
      ("Step", "step_name"), ("Action", "action"), ("Time", "timestamp")]).isValid = true ∧
    (validateMapping [("Note", "notes"), ("Case", "case_id"), ("Officer", "officer_id"),
      ("Step", "step_name"), ("Action", "action"), ("Time", "timestamp")]).isValid
      = (validateMapping [("Case", "case_id"), ("Officer", "officer_id"),
      ("Step", "step_name"), ("Action", "action"), ("Time", "timestamp")]).isValid := by
  constructor
  · exact (validateMapping_required_iff _).1.mpr (by decide)
  · exact (validateMapping_required_iff _).2.2 "Note" "notes" (by decide)

/-! ## Data model -/

/-- A deviation record as produced by the detection services and stored by the
backend (`backend/src/models/deviation.model.js`; the fields forwarded by
`analyzePatterns` in `workflow.controller.js`). -/
structure Deviation where
  case_id : String
  officer_id : String
  deviation_type : String
  severity : String
  description : String
  expected_behavior : String
  actual_behavior : String
  deriving Repr, DecidableEq

/-- A workflow event (one row of `WorkflowLog`); timestamps are embedded as
seconds (`Nat`), which totally order events within a case. -/
structure WorkflowEvent where
  case_id : String
  officer_id : String
  step_name : String
  action : String
  timestamp : Nat
  deriving Repr, DecidableEq

/-- A compliance rule (`backend/src/models/sop-rule.model.js`): rule type,
description, optional step number, severity. -/
structure ComplianceRule where
  id : Nat
  rule_type : String
  rule_description : String
  step_number : Option Nat
  severity : String
  deriving Repr, DecidableEq

/-! ## Pattern analysis fetch (`workflow.controller.js`, `analyzePatterns`) -/

/-- Function `analyzePatterns` in `backend/src/controllers/workflow.controller.js`
queries `Deviation.findAll({order: [[detected_at, DESC]], limit: 50})`: given
the deviation store ordered most-recent-first, it forwards only the first 50
records to the pattern-analysis service. -/
def analyzePatternsFetch (store : List Deviation) : List Deviation :=
  store.take 50

/-- A deviation record with a distinguishing case id, used to build concrete
populations. -/
def mkDev (i : Nat) : Deviation :=
  { case_id := "CASE" ++ toString i
    officer_id := "OFF" ++ toString i
    deviation_type := "missing_step"
    severity := "high"
    description := "Missing required step: Credit Check"
    expected_behavior := "Step Credit Check should be completed"
    actual_behavior := "Step Credit Check was skipped" }

/-- A store of 51 distinct deviations, ordered most-recent-first. -/
def pop51 : List Deviation := (List.range 51).map mkDev

/-- C1 (code bug evaluated at the failing input): with 51 stored deviations,
`analyzePatterns` forwards only the 50 most recent; the oldest deviation is
dropped, so downstream statistics cannot cover the entire cleaned population. -/
theorem analyzePatterns_drops_oldest :
    pop51.length = 51 ∧ (analyzePatternsFetch pop51).length = 50 ∧
    mkDev 50 ∈ pop51 ∧ mkDev 50 ∉ analyzePatternsFetch pop51 := by decide

/-! ## Sequence validator
(`ai-service/app/services/deviation/sequence_checker.py`, absent from the
snapshot; modelled from `DEVIATION_DETECTION_EXPLAINED.md` Part 2.A and §4.1 of
the specification) -/

/-- Deduplication keeping the first record per key, as a Python dict insertion
does: an element is kept when its key was not seen before. -/
def dedupBy {α κ : Type} (key : α → κ) [DecidableEq κ] (l : List α) : List α :=
  go [] l
where
  go : List κ → List α → List α
    | _, [] => []
    | seen, a :: rest =>
      if key a ∈ seen then go seen rest else a :: go (key a :: seen) rest

/-- Every element kept by the deduplication loop comes from the input list. -/
theorem mem_of_mem_dedupBy_go {α κ : Type} (key : α → κ) [DecidableEq κ] :
    ∀ (l : List α) (seen : List κ) (a : α), a ∈ dedupBy.go key seen l → a ∈ l := by
  intro l
  induction l with
  | nil => intro seen a h; simp [dedupBy.go] at h
  | cons b rest ih =>
    intro seen a h
    by_cases hk : key b ∈ seen
    · rw [dedupBy.go, if_pos hk] at h
      exact List.mem_cons_of_mem _ (ih _ _ h)
    · rw [dedupBy.go, if_neg hk] at h
      rcases List.mem_cons.mp h with rfl | h'
      · exact List.mem_cons_self _ _
      · exact List.mem_cons_of_mem _ (ih _ _ h')

/-- Every element of a deduplicated list comes from the original list. -/
theorem mem_of_mem_dedupBy {α κ : Type} (key : α → κ) [DecidableEq κ]
    (l : List α) (a : α) (h : a ∈ dedupBy key l) : a ∈ l :=
  mem_of_mem_dedupBy_go key l [] a h

/-- Modelled from the spec: `_compare_sequences` missing-step detection in
`sequence_checker.py` (not under `src/`), per `DEVIATION_DETECTION_EXPLAINED.md`:
`missing_steps = set(expected) - set(actual)`, iterated in expected order. -/
def missingSteps (expected actual : List String) : List String :=
  dedupBy id (expected.filter (fun s => !actual.contains s))

/-- Modelled from the spec: `_compare_sequences` unexpected-step detection in
`sequence_checker.py` (not under `src/`): `set(actual) - set(expected)`. -/
def unexpectedSteps (expected actual : List String) : List String :=
  dedupBy id (actual.filter (fun s => !expected.contains s))

/-- The step names present in both the expected and the actual sequence. -/
def bothSteps (expected actual : List String) : List String :=
  expected.filter (fun s => actual.contains s)

/-- Modelled from the spec: `_compare_sequences` wrong-order detection in
`sequence_checker.py` (not under `src/`): walk adjacent pairs of the actual
sequence; when both names are in the expected vocabulary and the expected index
of the current step exceeds that of the next, the pair is reported. -/
def wrongOrderPairs (expected actual : List String) : List (String × String) :=
  (actual.zip actual.tail).filter (fun p =>
    expected.contains p.1 && expected.contains p.2 &&
      decide (expected.indexOf p.2 < expected.indexOf p.1))

/-- A `missing_step` deviation as emitted by `_compare_sequences`. -/
def mkMissingStep (c o step : String) : Deviation :=
  { case_id := c, officer_id := o, deviation_type := "missing_step", severity := "high"
    description := "Missing required step: " ++ step
    expected_behavior := "Step " ++ step ++ " should be completed"
    actual_behavior := "Step " ++ step ++ " was skipped" }

/-- A `wrong_sequence` deviation as emitted by `_compare_sequences` for an
adjacent pair (`cur`, `nxt`) of the actual sequence. -/
def mkWrongSequence (c o cur nxt : String) : Deviation :=
  { case_id := c, officer_id := o, deviation_type := "wrong_sequence", severity := "high"
    description := "Wrong order: " ++ nxt ++ " before " ++ cur
    expected_behavior := "Step " ++ nxt ++ " should come after " ++ cur
    actual_behavior := "Step " ++ nxt ++ " occurred before " ++ cur }

/-- An `unexpected_step` deviation as emitted by `_compare_sequences`. -/
def mkUnexpectedStep (c o step : String) : Deviation :=
  { case_id := c, officer_id := o, deviation_type := "unexpected_step", severity := "medium"
    description := "Unexpected step: " ++ step
    expected_behavior := "Step " ++ step ++ " is not part of the expected sequence"
    actual_behavior := "Step " ++ step ++ " was performed" }

/-- Modelled from the spec: `_compare_sequences` in `sequence_checker.py` (not
under `src/`): missing steps, then wrong-order pairs, then unexpected steps. -/
def compare_sequences (c o : String) (expected actual : List String) : List Deviation :=
  (missingSteps expected actual).map (mkMissingStep c o)
    ++ (wrongOrderPairs expected actual).map (fun p => mkWrongSequence c o p.1 p.2)
    ++ (unexpectedSteps expected actual).map (mkUnexpectedStep c o)

/-- C5: the `wrong_sequence` deviations of the sequence validator are exactly
one per adjacent pair of the actual sequence whose step names both lie in the
expected vocabulary with the current step indexed after the next step; for
expected `[A,B,C]` and actual `[A,C,B]`, the validator output is exactly one
`wrong_sequence` deviation identifying that B occurred before C. -/
theorem wrong_sequence_characterization :
    (∀ c o expected actual,
      (compare_sequences c o expected actual).filter
          (fun d => d.deviation_type == "wrong_sequence")
        = ((actual.zip actual.tail).filter (fun p =>
            expected.contains p.1 && expected.contains p.2 &&
              decide (expected.indexOf p.2 < expected.indexOf p.1))).map
            (fun p => mkWrongSequence c o p.1 p.2)) ∧
    compare_sequences "CASE001" "OFF123" ["A", "B", "C"] ["A", "C", "B"]
      = [mkWrongSequence "CASE001" "OFF123" "C" "B"] ∧
    (mkWrongSequence "CASE001" "OFF123" "C" "B").description
      = "Wrong order: B before C" := by
  refine ⟨?_, by decide, by decide⟩
  intro c o expected actual
  unfold compare_sequences
  rw [List.filter_append, List.filter_append, List.filter_map, List.filter_map,
    List.filter_map]
  have hmiss : ((missingSteps expected actual).filter
      ((fun d => d.deviation_type == "wrong_sequence") ∘ mkMissingStep c o)) = [] := by
    rw [List.filter_eq_nil_iff]
    intro s _
    simp [mkMissingStep]
  have hunexp : ((unexpectedSteps expected actual).filter
      ((fun d => d.deviation_type == "wrong_sequence") ∘ mkUnexpectedStep c o)) = [] := by
    rw [List.filter_eq_nil_iff]
    intro s _
    simp [mkUnexpectedStep]
  have hwrong : ((wrongOrderPairs expected actual).filter
      ((fun d => d.deviation_type == "wrong_sequence") ∘
        fun p => mkWrongSequence c o p.1 p.2)) = wrongOrderPairs expected actual := by
    apply List.filter_eq_self.mpr
    intro p _
    simp [mkWrongSequence]
  rw [hmiss, hunexp, hwrong]
  simp [wrongOrderPairs]

/-- C7: for any case, the missing steps, the unexpected steps, and the steps
present in both the expected and the actual sequences are pairwise disjoint. -/
theorem step_sets_disjoint (expected actual : List String) :
    (missingSteps expected actual).Disjoint (unexpectedSteps expected actual) ∧
    (missingSteps expected actual).Disjoint (bothSteps expected actual) ∧
    (unexpectedSteps expected actual).Disjoint (bothSteps expected actual) := by
  refine ⟨?_, ?_, ?_⟩ <;> intro s hs ht
  · have h1 : ¬(actual.contains s = true) := by
      have := mem_of_mem_dedupBy id _ s hs
      simpa using (List.mem_filter.mp this).2
    have h2 : s ∈ actual := by
      have := mem_of_mem_dedupBy id _ s ht
      exact List.mem_of_mem_filter this
    exact h1 (List.elem_iff.mpr h2)
  · have h1 : ¬(actual.contains s = true) := by
      have := mem_of_mem_dedupBy id _ s hs
      simpa using (List.mem_filter.mp this).2
    have h2 : actual.contains s = true := (List.mem_filter.mp ht).2
    exact h1 h2
  · have h1 : ¬(expected.contains s = true) := by
      have := mem_of_mem_dedupBy id _ s hs
      simpa using (List.mem_filter.mp this).2
    have h2 : s ∈ expected := List.mem_of_mem_filter ht
    exact h1 (List.elem_iff.mpr h2)

/-- Witness for C7 at a concrete case: step D is missing from the actual
sequence, hence not reported unexpected. -/
theorem step_sets_disjoint_witness :
    ("D" : String) ∉ unexpectedSteps ["A", "B", "D"] ["A", "X", "B"] :=
  (step_sets_disjoint ["A", "B", "D"] ["A", "X", "B"]).1 (by decide)

/-! ## Rule validator
(`ai-service/app/services/deviation/rule_validator.py`, absent from the
snapshot; modelled from `DEVIATION_DETECTION_EXPLAINED.md` Part 2.B and §4.2 of
the specification) -/

/-- ASCII lower-casing of one character, as Python `str.lower` does on the
ASCII step names of the walkthrough. -/
def lowerChar (c : Char) : Char :=
  if 65 ≤ c.toNat ∧ c.toNat ≤ 90 then Char.ofNat (c.toNat + 32) else c

/-- ASCII lower-casing of a string. -/
def asciiLower (s : String) : String :=
  (s.toList.map lowerChar).asString

/-- Substring test: Python `needle in hay`. -/
def containsSub (needle hay : String) : Bool :=
  hay.toList.tails.any (fun t => needle.toList.isPrefixOf t)

/-- The officer owning a case: the officer of its first event. -/
def officerOf (logs : List WorkflowEvent) : String :=
  match logs with
  | [] => ""
  | l :: _ => l.officer_id

/-- A `missing_approval` deviation as emitted by `_check_approval_rules`. -/
def mkMissingApproval (c o kind : String) : Deviation :=
  { case_id := c, officer_id := o, deviation_type := "missing_approval"
    severity := "critical"
    description := "Missing " ++ kind ++ " approval"
    expected_behavior := "A " ++ kind ++ " approval step should be present"
    actual_behavior := "No " ++ kind ++ " approval step found" }

/-- Modelled from the spec: `_check_approval_rules` in `rule_validator.py` (not
under `src/`), per `DEVIATION_DETECTION_EXPLAINED.md`: the approval rules are
extracted from the rule set but the required keyword combinations
(`manager`+`approval`, `final`+`approval`) are hard-coded over the
lower-cased step names. -/
def check_approval_rules (c : String) (logs : List WorkflowEvent)
    (rules : List ComplianceRule) : List Deviation :=
  let _approval_rules := rules.filter (fun r => r.rule_type == "approval")
  let step_names := logs.map (fun l => asciiLower l.step_name)
  let has_manager_approval := step_names.any
    (fun s => containsSub "manager" s && containsSub "approval" s)
  let has_final_approval := step_names.any
    (fun s => containsSub "final" s && containsSub "approval" s)
  (if has_manager_approval then [] else [mkMissingApproval c (officerOf logs) "manager"])
    ++ (if has_final_approval then [] else [mkMissingApproval c (officerOf logs) "final"])

/-- Tenths-of-hours rendering of a duration in seconds. -/
def hoursTenths (seconds : Nat) : String :=
  let t := seconds * 10 / 3600
  toString (t / 10) ++ "." ++ toString (t % 10) ++ " hours"

/-- Tenths-of-days rendering of a gap in seconds. -/
def daysTenths (seconds : Nat) : String :=
  let t := seconds * 10 / 86400
  toString (t / 10) ++ "." ++ toString (t % 10) ++ " days"

/-- The rushed-process `timing_violation` deviation (severity medium). -/
def mkTimingRushed (c o : String) (durationSeconds : Nat) : Deviation :=
  { case_id := c, officer_id := o, deviation_type := "timing_violation"
    severity := "medium"
    description := "Process completed too quickly"
    expected_behavior := "Proper review time required for each step"
    actual_behavior := "Process completed in " ++ hoursTenths durationSeconds }

/-- The excessive-delay `timing_violation` deviation (severity low). -/
def mkTimingDelay (c o : String) (gapSeconds : Nat) : Deviation :=
  { case_id := c, officer_id := o, deviation_type := "timing_violation"
    severity := "low"
    description := "Long delay: " ++ daysTenths gapSeconds ++ " between steps"
    expected_behavior := "Steps should follow each other within 7 days"
    actual_behavior := "Gap of " ++ daysTenths gapSeconds ++ " between steps" }

/-- Modelled from the spec: `_check_timing_rules` in `rule_validator.py` (not
under `src/`): total elapsed time below one hour emits a medium rushed-process
violation; every adjacent gap above seven days emits a low excessive-delay
violation. -/
def check_timing_rules (c : String) (logs : List WorkflowEvent) : List Deviation :=
  match logs with
  | [] => []
  | l0 :: _ =>
    let first := l0.timestamp
    let last := logs.foldl (fun _ l => l.timestamp) first
    let duration := last - first
    (if duration < 3600 then [mkTimingRushed c (officerOf logs) duration] else [])
      ++ ((logs.zip logs.tail).filter
            (fun p => decide (7 * 86400 < p.2.timestamp - p.1.timestamp))).map
          (fun p => mkTimingDelay c (officerOf logs) (p.2.timestamp - p.1.timestamp))

/-- C6 counterexample: with an empty rule set (no approval-type rule at all),
the approval check still emits two `missing_approval` deviations for the
hard-coded manager/final keyword combinations. -/
theorem approval_check_emits_without_rules :
    ((check_approval_rules "CASE001"
        [{ case_id := "CASE001", officer_id := "OFF123",
           step_name := "Application Received", action := "received", timestamp := 0 }]
        []).map Deviation.deviation_type)
      = ["missing_approval", "missing_approval"] := by decide

/-- C6 amended: the approval check's keyword sets are hard-coded, not derived
from the supplied rules: the output is the same for every two rule sets, and
the manager-approval deviation is emitted exactly when no step name contains
both hard-coded tokens `manager` and `approval`. -/
theorem approval_check_hardcoded (c : String) (logs : List WorkflowEvent)
    (rules rules' : List ComplianceRule) :
    check_approval_rules c logs rules = check_approval_rules c logs rules' ∧
    ((check_approval_rules c logs rules).any
        (fun d => d.description == "Missing manager approval")
      = !(logs.any (fun l => containsSub "manager" (asciiLower l.step_name)
          && containsSub "approval" (asciiLower l.step_name)))) := by
  constructor
  · rfl
  · unfold check_approval_rules
    dsimp only
    by_cases hm : (logs.map (fun l => asciiLower l.step_name)).any
        (fun s => containsSub "manager" s && containsSub "approval" s)
    · rw [if_pos hm]
      have hm' : logs.any (fun l => containsSub "manager" (asciiLower l.step_name)
          && containsSub "approval" (asciiLower l.step_name)) = true := by
        simpa [List.any_map, Function.comp] using hm
      by_cases hf : (logs.map (fun l => asciiLower l.step_name)).any
          (fun s => containsSub "final" s && containsSub "approval" s)
      · rw [if_pos hf]
        simp [hm']
      · rw [if_neg hf]
        simp [hm', mkMissingApproval]
    · rw [if_neg hm]
      have hm' : logs.any (fun l => containsSub "manager" (asciiLower l.step_name)
          && containsSub "approval" (asciiLower l.step_name)) = false := by
        rw [← Bool.not_eq_true]
        intro hc
        apply hm
        simpa [List.any_map, Function.comp] using hc
      by_cases hf : (logs.map (fun l => asciiLower l.step_name)).any
          (fun s => containsSub "final" s && containsSub "approval" s)
      · rw [if_pos hf]
        simp [hm', mkMissingApproval]
      · rw [if_neg hf]
        simp [hm', mkMissingApproval]

/-! ## Expected sequence construction and Scenario A -/

/-- Lexicographic comparison on (step number, rule id). -/
def ruleKeyLe (p q : Nat × Nat) : Bool :=
  decide (p.1 < q.1) || (decide (p.1 = q.1) && decide (p.2 ≤ q.2))

/-- Insertion into a list sorted by `ruleKeyLe` on the given key. -/
def insertByKey {α : Type} (keyOf : α → Nat × Nat) (a : α) : List α → List α
  | [] => [a]
  | b :: bs =>
    if ruleKeyLe (keyOf b) (keyOf a) then b :: insertByKey keyOf a bs else a :: b :: bs

/-- Insertion sort by `ruleKeyLe` on the given key (deterministic order on
(step number, rule id)). -/
def sortByKey {α : Type} (keyOf : α → Nat × Nat) (l : List α) : List α :=
  l.foldr (insertByKey keyOf) []

/-- Modelled from the spec: `_build_expected_sequence` in `sequence_checker.py`
(not under `src/`).  Sequence rules are ordered by step number with ties broken
by rule identity; per the walkthrough of `DEVIATION_DETECTION_EXPLAINED.md`,
the approval rules contribute their approval step next and the standard closing
step `Final Approval` ends the sequence.  The step name that a rule mandates is
derived from its free-text description by the external AI rule extractor (not
under `src/`) and is therefore supplied here as data via `stepOf`. -/
def build_expected_sequence (stepOf : ComplianceRule → String)
    (rules : List ComplianceRule) : List String :=
  let seqRules := sortByKey (fun r => (r.step_number.getD 0, r.id))
    (rules.filter (fun r => r.rule_type == "sequence"))
  (seqRules.map stepOf)
    ++ ((rules.filter (fun r => r.rule_type == "approval")).map stepOf)
    ++ ["Final Approval"]

/-- Modelled from the spec: one analysis of a single case, as
`deviation_detector.py` combines them — sequence deviations, then approval
deviations, then timing deviations. -/
def detect_case (expected : List String) (c : String) (logs : List WorkflowEvent)
    (rules : List ComplianceRule) : List Deviation :=
  compare_sequences c (officerOf logs) expected (logs.map (fun l => l.step_name))
    ++ check_approval_rules c logs rules
    ++ check_timing_rules c logs

/-- Scenario A rule 1: sequence step 1, Application Received. -/
def ruleA1 : ComplianceRule :=
  { id := 1, rule_type := "sequence",
    rule_description := "Application must be received first",
    step_number := some 1, severity := "high" }

/-- Scenario A rule 2: sequence step 2, Document Verification. -/
def ruleA2 : ComplianceRule :=
  { id := 2, rule_type := "sequence",
    rule_description := "Document verification must follow application",
    step_number := some 2, severity := "high" }

/-- Scenario A rule 3: sequence step 3, Credit Check. -/
def ruleA3 : ComplianceRule :=
  { id := 3, rule_type := "sequence",
    rule_description := "Credit check must be performed",
    step_number := some 3, severity := "critical" }

/-- Scenario A rule 4: approval, manager approval required. -/
def ruleA4 : ComplianceRule :=
  { id := 4, rule_type := "approval",
    rule_description := "Manager approval required before final approval",
    step_number := none, severity := "critical" }

/-- The four rules of Scenario A. -/
def scenarioA_rules : List ComplianceRule := [ruleA1, ruleA2, ruleA3, ruleA4]

/-- Modelled from the spec: the step name each Scenario A rule mandates, as the
external AI rule extractor derives it from the rule description (walkthrough
values of `DEVIATION_DETECTION_EXPLAINED.md`). -/
def scenarioA_stepOf (r : ComplianceRule) : String :=
  if r.id = 1 then "Application Received"
  else if r.id = 2 then "Document Verification"
  else if r.id = 3 then "Credit Check"
  else if r.id = 4 then "Manager Approval"
  else ""

/-- Scenario A event 1: Application Received at t0 (09:00). -/
def eventA1 : WorkflowEvent :=
  { case_id := "CASE001", officer_id := "OFF123",
    step_name := "Application Received", action := "received", timestamp := 32400 }

/-- Scenario A event 2: Final Approval at t0 + 30 min (09:30). -/
def eventA2 : WorkflowEvent :=
  { case_id := "CASE001", officer_id := "OFF123",
    step_name := "Final Approval", action := "approved", timestamp := 34200 }

/-- The deviations the pipeline emits for Scenario A. -/
def scenarioA_deviations : List Deviation :=
  detect_case (build_expected_sequence scenarioA_stepOf scenarioA_rules)
    "CASE001" [eventA1, eventA2] scenarioA_rules

/-- C3: Scenario A emits exactly 5 deviations: three `missing_step` (Document
Verification, Credit Check, Manager Approval, in that order), one
`missing_approval` (critical), and one `timing_violation` for the process
being too rushed (0.5 hours, below the 1-hour default minimum). -/
theorem scenarioA_exactly_five :
    scenarioA_deviations.length = 5 ∧
    scenarioA_deviations.map (fun d => (d.deviation_type, d.severity, d.description))
      = [("missing_step", "high", "Missing required step: Document Verification"),
         ("missing_step", "high", "Missing required step: Credit Check"),
         ("missing_step", "high", "Missing required step: Manager Approval"),
         ("missing_approval", "critical", "Missing manager approval"),
         ("timing_violation", "medium", "Process completed too quickly")] ∧
    scenarioA_deviations.getLast?.map (fun d => d.actual_behavior)
      = some "Process completed in 0.5 hours" := by decide

/-! ## Representative sampler
(`ai-service/app/services/ml/intelligent_sampler.py`, absent from the
snapshot; modelled from §4.8 of the specification and the Phase 2 summary) -/

/-- A cleaned deviation with its ephemeral per-run ML annotations: position in
the cleaned population (`id`), cluster label (−1 = noise), anomaly flag, and
the categorical attributes the sampler backfills on. -/
structure MLDeviation where
  id : Nat
  severity : String
  period : String
  officer_id : String
  cluster : Int
  is_anomaly : Bool
  deriving Repr, DecidableEq

/-- The cluster labels occurring in a population, in first-appearance order. -/
def clusterLabels (l : List MLDeviation) : List Int :=
  dedupBy (fun x => x) (l.map (fun d => d.cluster))

/-- Modelled from the spec: proportional cluster allocation of the
remaining budget (larger clusters get more representatives). -/
def clusterPicks (budget : Nat) (rest : List MLDeviation) : List MLDeviation :=
  (clusterLabels rest).flatMap (fun cl =>
    let members := rest.filter (fun d => decide (d.cluster = cl))
    members.take (budget * members.length / rest.length))

/-- Modelled from the spec: coverage backfill — one first representative per
distinct value of the given attribute present in the pool. -/
def coverageFirsts (attr : MLDeviation → String) (pool : List MLDeviation) :
    List MLDeviation :=
  (dedupBy (fun x => x) (pool.map attr)).filterMap
    (fun v => pool.find? (fun d => attr d == v))

/-- Modelled from the spec: the priority order in which non-anomalous members
fill the remaining budget — cluster representatives proportionally, then
severity coverage, then time-period coverage, then up to 5 additional
officers, then any remaining member. -/
def fillOrder (budget : Nat) (rest : List MLDeviation) : List MLDeviation :=
  clusterPicks budget rest
    ++ coverageFirsts (fun d => d.severity) rest
    ++ coverageFirsts (fun d => d.period) rest
    ++ (coverageFirsts (fun d => d.officer_id) rest).take 5
    ++ rest

/-- Modelled from the spec: `intelligent_sampler.py` (not under `src/`): all
anomaly-flagged deviations are included unconditionally; the remaining budget
(target size minus anomaly count, when positive) is filled from the
non-anomalous members in priority order without repetition. -/
def sampleSelected (target_size : Nat) (pop : List MLDeviation) : List MLDeviation :=
  let anomalies := pop.filter (fun d => d.is_anomaly)
  let rest := pop.filter (fun d => !d.is_anomaly)
  let budget := target_size - anomalies.length
  anomalies ++ (dedupBy (fun x => x) (fillOrder budget rest)).take budget

/-- The ordered ids the sampler outputs. -/
def sampleIds (target_size : Nat) (pop : List MLDeviation) : List Nat :=
  (sampleSelected target_size pop).map (fun d => d.id)

/-- The compression ratio of the sampling report, in tenths (one decimal):
cleaned population size divided by output size. -/
def compressionRatioTenths (target_size : Nat) (pop : List MLDeviation) : Nat :=
  pop.length * 10 / (sampleSelected target_size pop).length

/-- The identity-keyed deduplication loop keeps exactly the unseen elements of
its input. -/
theorem mem_dedupBy_id_go {α : Type} [DecidableEq α] :
    ∀ (l : List α) (seen : List α) (a : α),
      a ∈ dedupBy.go (fun x => x) seen l ↔ (a ∈ l ∧ a ∉ seen) := by
  intro l
  induction l with
  | nil => intro seen a; simp [dedupBy.go]
  | cons b rest ih =>
    intro seen a
    by_cases hk : b ∈ seen
    · rw [dedupBy.go]
      simp only [if_pos hk, ih, List.mem_cons]
      constructor
      · rintro ⟨h1, h2⟩; exact ⟨Or.inr h1, h2⟩
      · rintro ⟨h1 | h1, h2⟩
        · exact absurd (h1 ▸ hk) h2
        · exact ⟨h1, h2⟩
    · rw [dedupBy.go]
      simp only [if_neg hk, List.mem_cons, ih]
      by_cases hab : a = b
      · subst hab
        simp [hk]
      · simp [hab]

/-- Identity-keyed deduplication keeps exactly the elements of its input. -/
theorem mem_dedupBy_id {α : Type} [DecidableEq α] (l : List α) (a : α) :
    a ∈ dedupBy (fun x => x) l ↔ a ∈ l := by
  rw [dedupBy, mem_dedupBy_id_go]
  simp

/-- The identity-keyed deduplication loop emits no duplicates. -/
theorem nodup_dedupBy_id_go {α : Type} [DecidableEq α] :
    ∀ (l : List α) (seen : List α), (dedupBy.go (fun x => x) seen l).Nodup := by
  intro l
  induction l with
  | nil => intro seen; simp [dedupBy.go]
  | cons b rest ih =>
    intro seen
    by_cases hk : b ∈ seen
    · rw [dedupBy.go, if_pos hk]
      exact ih seen
    · rw [dedupBy.go, if_neg hk]
      refine List.nodup_cons.mpr ⟨?_, ih _⟩
      intro hmem
      exact ((mem_dedupBy_id_go rest _ b).mp hmem).2 (List.mem_cons_self _ _)

/-- Identity-keyed deduplication emits no duplicates. -/
theorem nodup_dedupBy_id {α : Type} [DecidableEq α] (l : List α) :
    (dedupBy (fun x => x) l).Nodup :=
  nodup_dedupBy_id_go l []

/-- Every stage of the fill order draws from the non-anomalous pool. -/
theorem mem_fillOrder_iff (budget : Nat) (rest : List MLDeviation) (d : MLDeviation) :
    d ∈ fillOrder budget rest ↔ d ∈ rest := by
  constructor
  · intro h
    rcases List.mem_append.mp h with h | h
    · rcases List.mem_append.mp h with h | h
      · rcases List.mem_append.mp h with h | h
        · rcases List.mem_append.mp h with h | h
          · rcases List.mem_flatMap.mp h with ⟨cl, _, hm⟩
            exact List.mem_of_mem_filter (List.take_subset _ _ hm)
          · rcases List.mem_filterMap.mp h with ⟨v, _, hf⟩
            exact List.mem_of_find?_eq_some hf
        · rcases List.mem_filterMap.mp h with ⟨v, _, hf⟩
          exact List.mem_of_find?_eq_some hf
      · rcases List.mem_filterMap.mp (List.take_subset _ _ h) with ⟨v, _, hf⟩
        exact List.mem_of_find?_eq_some hf
    · exact h
  · intro h
    exact List.mem_append_right _ h

/-- C2: every anomaly-flagged deviation id appears in the sampler's output,
for every population and target size. -/
theorem sampler_includes_all_anomalies (target_size : Nat) (pop : List MLDeviation)
    (d : MLDeviation) (hmem : d ∈ pop) (hanom : d.is_anomaly = true) :
    d.id ∈ sampleIds target_size pop := by
  unfold sampleIds sampleSelected
  dsimp only
  rw [List.map_append]
  apply List.mem_append_left
  exact List.mem_map_of_mem _ (List.mem_filter.mpr ⟨hmem, hanom⟩)

/-- Witness for C2: a population of 3 anomalies and 2 normal members with
target size 2 (anomaly count exceeds the target) still contains each anomaly
id, e.g. id 2. -/
theorem sampler_includes_all_anomalies_witness :
    (2 : Nat) ∈ sampleIds 2
      [{ id := 0, severity := "high", period := "morning", officer_id := "O1",
         cluster := -1, is_anomaly := true },
       { id := 1, severity := "low", period := "night", officer_id := "O2",
         cluster := -1, is_anomaly := true },
       { id := 2, severity := "medium", period := "evening", officer_id := "O3",
         cluster := -1, is_anomaly := true },
       { id := 3, severity := "low", period := "morning", officer_id := "O1",
         cluster := 0, is_anomaly := false },
       { id := 4, severity := "low", period := "morning", officer_id := "O1",
         cluster := 0, is_anomaly := false }] :=
  sampler_includes_all_anomalies 2 _
    { id := 2, severity := "medium", period := "evening", officer_id := "O3",
      cluster := -1, is_anomaly := true } (by decide) (by decide)

/-- A one-member, anomaly-free population. -/
def popC4 : List MLDeviation :=
  [{ id := 0, severity := "low", period := "night", officer_id := "O1",
     cluster := 0, is_anomaly := false }]

/-- C4 counterexample: for a cleaned population of one deviation with no
anomalies and target size 75, the sampler outputs 1 record, not
`max(target_size, anomaly_count) = 75` — a subset of the population can never
exceed the population size. -/
theorem sampler_size_claim_cex :
    (sampleSelected 75 popC4).length = 1 ∧
    (popC4.filter (fun d => d.is_anomaly)).length = 0 ∧
    (sampleSelected 75 popC4).length
      ≠ max 75 (popC4.filter (fun d => d.is_anomaly)).length := by decide

/-- C4 amended: for every duplicate-free cleaned population, the sampler's
output size is `min(cleaned_count, max(target_size, anomaly_count))`, and the
reported compression ratio (in tenths) is the cleaned count divided by that
output size. -/
theorem sampler_size (target_size : Nat) (pop : List MLDeviation) (h : pop.Nodup) :
    (sampleSelected target_size pop).length
      = min pop.length (max target_size (pop.filter (fun d => d.is_anomaly)).length) ∧
    compressionRatioTenths target_size pop
      = pop.length * 10
        / min pop.length (max target_size (pop.filter (fun d => d.is_anomaly)).length) := by
  have hsize : (sampleSelected target_size pop).length
      = min pop.length (max target_size (pop.filter (fun d => d.is_anomaly)).length) := by
    unfold sampleSelected
    dsimp only
    rw [List.length_append, List.length_take]
    set A := pop.filter (fun d => d.is_anomaly) with hA
    set rest := pop.filter (fun d => !d.is_anomaly) with hrest
    have hdd : (dedupBy (fun x => x)
        (fillOrder (target_size - A.length) rest)).length = rest.length := by
      have hnodup1 : (dedupBy (fun x => x)
          (fillOrder (target_size - A.length) rest)).Nodup := nodup_dedupBy_id _
      have hnodup2 : rest.Nodup := h.filter _
      have hmem : ∀ x, x ∈ dedupBy (fun x => x)
          (fillOrder (target_size - A.length) rest) ↔ x ∈ rest := by
        intro x
        rw [mem_dedupBy_id, mem_fillOrder_iff]
      have hfin : (dedupBy (fun x => x)
          (fillOrder (target_size - A.length) rest)).toFinset = rest.toFinset := by
        ext x
        rw [List.mem_toFinset, List.mem_toFinset, hmem]
      calc (dedupBy (fun x => x) (fillOrder (target_size - A.length) rest)).length
          = (dedupBy (fun x => x)
              (fillOrder (target_size - A.length) rest)).toFinset.card :=
            (List.toFinset_card_of_nodup hnodup1).symm
        _ = rest.toFinset.card := by rw [hfin]
        _ = rest.length := List.toFinset_card_of_nodup hnodup2
    rw [hdd]
    have hsplit : A.length + rest.length = pop.length := by
      rw [hA, hrest]
      exact (List.length_eq_length_filter_add _).symm
    omega
  refine ⟨hsize, ?_⟩
  unfold compressionRatioTenths
  rw [hsize]

/-- An anomaly-flagged member of the Scenario B population. -/
def mkAnomB (i : Nat) : MLDeviation :=
  { id := i, severity := "high", period := "morning", officer_id := "OFF1",
    cluster := -1, is_anomaly := true }

/-- A normal member of the Scenario B population. -/
def mkNormB (i : Nat) : MLDeviation :=
  { id := i, severity := "medium", period := "afternoon", officer_id := "OFF2",
    cluster := 0, is_anomaly := false }

/-- The Scenario B population: 800 cleaned deviations of which 80 are
anomaly-flagged (contamination 0.10). -/
def popB : List MLDeviation :=
  ((List.range 80).map mkAnomB) ++ ((List.range 720).map (fun i => mkNormB (80 + i)))

/-- The Scenario B population has 800 members. -/
theorem popB_length : popB.length = 800 := by
  simp [popB]

/-- The Scenario B population has 80 anomalies. -/
theorem popB_anomCount : (popB.filter (fun d => d.is_anomaly)).length = 80 := by
  rw [popB, List.filter_append]
  have h1 : ((List.range 80).map mkAnomB).filter (fun d => d.is_anomaly)
      = (List.range 80).map mkAnomB := by
    apply List.filter_eq_self.mpr
    intro d hd
    rcases List.mem_map.mp hd with ⟨i, _, rfl⟩
    rfl
  have h2 : (((List.range 720).map (fun i => mkNormB (80 + i))).filter
      (fun d => d.is_anomaly)) = [] := by
    apply List.filter_eq_nil_iff.mpr
    intro d hd
    rcases List.mem_map.mp hd with ⟨i, _, rfl⟩
    simp [mkNormB]
  rw [h1, h2]
  simp

/-- The Scenario B population is duplicate-free. -/
theorem popB_nodup : popB.Nodup := by
  apply List.Nodup.append
  · apply List.Nodup.map _ (List.nodup_range 80)
    intro a b hab
    have := congrArg MLDeviation.id hab
    simpa [mkAnomB] using this
  · apply List.Nodup.map _ (List.nodup_range 720)
    intro a b hab
    have := congrArg MLDeviation.id hab
    simp only [mkNormB] at this
    omega
  · intro x hx hy
    rcases List.mem_map.mp hx with ⟨i, hi, rfl⟩
    rcases List.mem_map.mp hy with ⟨j, hj, hEq⟩
    have hidlt : i < 80 := List.mem_range.mp hi
    have := congrArg MLDeviation.id hEq
    simp only [mkAnomB, mkNormB] at this
    omega

/-- Witness for C4 (Scenario B): 800 cleaned deviations, 80 anomalies, target
75 — the output holds 80 records and the reported compression ratio is 10.0. -/
theorem sampler_size_witness :
    (sampleSelected 75 popB).length = 80 ∧ compressionRatioTenths 75 popB = 100 := by
  have h := sampler_size 75 popB popB_nodup
  rw [popB_length, popB_anomCount] at h
  exact ⟨h.1.trans (by norm_num), h.2.trans (by norm_num)⟩

/-! ## Data cleaner
(`ai-service/app/services/data/data_cleaner.py`, absent from the snapshot;
modelled from §4.3 of the specification and the Phase 1 summary) -/

/-- A raw deviation record as the cleaner receives it. -/
structure DevRec where
  case_id : String
  officer_id : String
  deviation_type : String
  severity : String
  description : String
  deriving Repr, DecidableEq

/-- Modelled from the spec: severity validation of `data_cleaner.py` (not under
`src/`): the four-level vocabulary with known synonyms (e.g. `crit` →
`critical`), unrecognized values defaulting to `medium`. -/
def normSeverity (s : String) : String :=
  let l := asciiLower s
  if l = "critical" ∨ l = "crit" then "critical"
  else if l = "high" ∨ l = "severe" then "high"
  else if l = "medium" ∨ l = "med" ∨ l = "moderate" then "medium"
  else if l = "low" ∨ l = "minor" then "low"
  else "medium"

/-- Modelled from the spec: per-record normalization of `data_cleaner.py` (not
under `src/`): severity validation and text normalization of the description
(modelled as ASCII lower-casing). -/
def normRec (d : DevRec) : DevRec :=
  { d with severity := normSeverity d.severity, description := asciiLower d.description }

/-- The deduplication key: `(case_id, officer_id, deviation_type, normalized
description prefix)` — the first 50 characters of the normalized description. -/
def cleanKey (d : DevRec) : String × String × String × String :=
  (d.case_id, d.officer_id, d.deviation_type, d.description.take 50)

/-- Result of one cleaning pass: the deduplicated records, the per-record
duplicate counts, and the number of duplicates removed. -/
structure CleanResult where
  records : List DevRec
  duplicate_counts : List Nat
  duplicates_removed : Nat
  deriving Repr, DecidableEq

/-- Modelled from the spec: `DataCleaner.clean_deviations` (not under `src/`):
normalize every record, deduplicate on the cleaning key retaining a duplicate
count per kept record, and report the number of removed duplicates. -/
def clean_deviations (l : List DevRec) : CleanResult :=
  let normed := l.map normRec
  let recs := dedupBy cleanKey normed
  { records := recs
    duplicate_counts := recs.map
      (fun d => normed.countP (fun e => decide (cleanKey e = cleanKey d)))
    duplicates_removed := normed.length - recs.length }

/-- ASCII lower-casing is idempotent on characters. -/
theorem lowerChar_idem (c : Char) : lowerChar (lowerChar c) = lowerChar c := by
  unfold lowerChar
  by_cases h : 65 ≤ c.toNat ∧ c.toNat ≤ 90
  · rw [if_pos h]
    obtain ⟨h1, h2⟩ := h
    have hno : ¬(65 ≤ (Char.ofNat (c.toNat + 32)).toNat ∧
        (Char.ofNat (c.toNat + 32)).toNat ≤ 90) := by
      generalize hgen : c.toNat = n at h1 h2 ⊢
      interval_cases n <;> decide
    rw [if_neg hno]
  · rw [if_neg h, if_neg h]

/-- Lower-casing a character list twice is the same as once. -/
theorem mapLower_idem (l : List Char) :
    (l.map lowerChar).map lowerChar = l.map lowerChar := by
  induction l with
  | nil => rfl
  | cons c cs ih => simp [ih, lowerChar_idem]

/-- ASCII lower-casing is idempotent on strings. -/
theorem asciiLower_idem (s : String) : asciiLower (asciiLower s) = asciiLower s := by
  show ((s.toList.map lowerChar).map lowerChar).asString = (s.toList.map lowerChar).asString
  rw [mapLower_idem]

/-- Severity normalization is idempotent. -/
theorem normSeverity_idem (s : String) :
    normSeverity (normSeverity s) = normSeverity s := by
  have hfix : ∀ t ∈ (["critical", "high", "medium", "low"] : List String),
      normSeverity t = t := by decide
  apply hfix
  unfold normSeverity
  dsimp only
  split_ifs <;> simp

/-- Record normalization is idempotent. -/
theorem normRec_idem (d : DevRec) : normRec (normRec d) = normRec d := by
  unfold normRec
  simp [normSeverity_idem, asciiLower_idem]

/-- Every record kept by the deduplication loop has a key outside the seen
set. -/
theorem key_not_seen_of_mem_dedupBy_go {α κ : Type} (key : α → κ) [DecidableEq κ] :
    ∀ (l : List α) (seen : List κ) (a : α),
      a ∈ dedupBy.go key seen l → key a ∉ seen := by
  intro l
  induction l with
  | nil => intro seen a h; simp [dedupBy.go] at h
  | cons b rest ih =>
    intro seen a h
    by_cases hk : key b ∈ seen
    · rw [dedupBy.go, if_pos hk] at h
      exact ih _ _ h
    · rw [dedupBy.go, if_neg hk] at h
      rcases List.mem_cons.mp h with rfl | h'
      · exact hk
      · intro hs
        exact ih _ _ h' (List.mem_cons_of_mem _ hs)

/-- The deduplication loop produces pairwise-distinct keys. -/
theorem pairwise_keys_dedupBy_go {α κ : Type} (key : α → κ) [DecidableEq κ] :
    ∀ (l : List α) (seen : List κ),
      (dedupBy.go key seen l).Pairwise (fun a b => key a ≠ key b) := by
  intro l
  induction l with
  | nil => intro seen; simp [dedupBy.go]
  | cons b rest ih =>
    intro seen
    by_cases hk : key b ∈ seen
    · rw [dedupBy.go, if_pos hk]
      exact ih seen
    · rw [dedupBy.go, if_neg hk]
      refine List.pairwise_cons.mpr ⟨?_, ih _⟩
      intro a ha hEq
      exact key_not_seen_of_mem_dedupBy_go key rest _ a ha
        (hEq ▸ List.mem_cons_self _ _)

/-- Deduplication produces pairwise-distinct keys. -/
theorem pairwise_keys_dedupBy {α κ : Type} (key : α → κ) [DecidableEq κ]
    (l : List α) : (dedupBy key l).Pairwise (fun a b => key a ≠ key b) :=
  pairwise_keys_dedupBy_go key l []

/-- The deduplication loop leaves a key-pairwise-distinct list unchanged when
no key was seen yet. -/
theorem dedupBy_go_eq_self {α κ : Type} (key : α → κ) [DecidableEq κ] :
    ∀ (l : List α) (seen : List κ),
      l.Pairwise (fun a b => key a ≠ key b) → (∀ a ∈ l, key a ∉ seen) →
      dedupBy.go key seen l = l := by
  intro l
  induction l with
  | nil => intro seen _ _; rfl
  | cons b rest ih =>
    intro seen hpair hseen
    have hk : key b ∉ seen := hseen b (List.mem_cons_self _ _)
    rw [dedupBy.go, if_neg hk]
    congr 1
    apply ih _ (List.Pairwise.of_cons hpair)
    intro a ha
    intro hmem
    rcases List.mem_cons.mp hmem with h | h
    · exact (List.pairwise_cons.mp hpair).1 a ha h.symm
    · exact hseen a (List.mem_cons_of_mem _ ha) h

/-- Deduplication leaves a key-pairwise-distinct list unchanged. -/
theorem dedupBy_eq_self {α κ : Type} (key : α → κ) [DecidableEq κ]
    (l : List α) (h : l.Pairwise (fun a b => key a ≠ key b)) :
    dedupBy key l = l :=
  dedupBy_go_eq_self key l [] h (by simp)

/-- Mapping a function that fixes every member is the identity. -/
theorem map_eq_self_of_mem {α : Type} {f : α → α} {l : List α}
    (h : ∀ a ∈ l, f a = a) : l.map f = l := by
  rw [List.map_congr_left h]
  exact List.map_id l

/-- C8: cleaning is idempotent — re-cleaning an already-cleaned set removes
zero additional records and leaves the records unchanged. -/
theorem cleaning_idempotent (l : List DevRec) :
    (clean_deviations (clean_deviations l).records).duplicates_removed = 0 ∧
    (clean_deviations (clean_deviations l).records).records
      = (clean_deviations l).records := by
  have hfix : ∀ x ∈ (clean_deviations l).records, normRec x = x := by
    intro x hx
    have hx' : x ∈ (l.map normRec) :=
      mem_of_mem_dedupBy cleanKey _ x hx
    rcases List.mem_map.mp hx' with ⟨y, _, rfl⟩
    exact normRec_idem y
  have hmap : (clean_deviations l).records.map normRec = (clean_deviations l).records :=
    map_eq_self_of_mem hfix
  have hpair : (clean_deviations l).records.Pairwise
      (fun a b => cleanKey a ≠ cleanKey b) :=
    pairwise_keys_dedupBy cleanKey _
  have hded : dedupBy cleanKey ((clean_deviations l).records.map normRec)
      = (clean_deviations l).records := by
    rw [hmap]
    exact dedupBy_eq_self cleanKey _ hpair
  constructor
  · show ((clean_deviations l).records.map normRec).length
        - (dedupBy cleanKey ((clean_deviations l).records.map normRec)).length = 0
    rw [hded, List.length_map]
    omega
  · show dedupBy cleanKey ((clean_deviations l).records.map normRec)
        = (clean_deviations l).records
    exact hded

/-! ## Workflow log upload (`workflow.controller.js`, `uploadWorkflowLogs`) -/

/-- One parsed CSV row after flexible column extraction (`getColumnValue`):
each required column is present or absent; the column-name aliasing layer is
abstracted into the `Option` fields. -/
structure CsvRow where
  case_id : Option String
  officer_id : Option String
  step_name : Option String
  action : Option String
  timestamp : Option String
  deriving Repr, DecidableEq

/-- A stored workflow log row (`WorkflowLog.create` payload). -/
structure SavedLog where
  case_id : String
  officer_id : String
  step_name : String
  action : String
  timestamp : String
  deriving Repr, DecidableEq

/-- The per-row validation of `uploadWorkflowLogs`: a row is saved exactly when
`case_id`, `officer_id`, `step_name` and `timestamp` are all present; `action`
defaults to `completed`. -/
def rowToLog (r : CsvRow) : Option SavedLog :=
  match r.case_id, r.officer_id, r.step_name, r.timestamp with
  | some c, some o, some s, some t =>
    some { case_id := c, officer_id := o, step_name := s,
           action := r.action.getD "completed", timestamp := t }
  | _, _, _, _ => none

/-- The per-row error message of `uploadWorkflowLogs`, naming the first missing
required field (checked in source order: case_id, officer_id, step_name,
timestamp); `i` is the zero-based row position, reported as `i + 2`. -/
def rowError (i : Nat) (r : CsvRow) : Option String :=
  match r.case_id with
  | none => some ("Row " ++ toString (i + 2) ++ ": Missing case_id")
  | some _ =>
    match r.officer_id with
    | none => some ("Row " ++ toString (i + 2) ++ ": Missing officer_id")
    | some _ =>
      match r.step_name with
      | none => some ("Row " ++ toString (i + 2) ++ ": Missing step_name")
      | some _ =>
        match r.timestamp with
        | none => some ("Row " ++ toString (i + 2) ++ ": Missing timestamp")
        | some _ => none

/-- The row loop of `uploadWorkflowLogs` starting at row position `i`: each
malformed row is skipped with its error collected, each well-formed row is
saved, and the loop always continues to the next row. -/
def processRows : Nat → List CsvRow → List SavedLog × List String
  | _, [] => ([], [])
  | i, r :: rest =>
    let acc := processRows (i + 1) rest
    match rowToLog r with
    | some log => (log :: acc.1, acc.2)
    | none => (acc.1, (rowError i r).getD "unknown error" :: acc.2)

/-- The outcome of `uploadWorkflowLogs`: when no log at all was saved the
request is rejected with the collected errors; otherwise a success summary
with the saved count and the (possibly nonempty) error list is returned. -/
def uploadOutcome (rows : List CsvRow) : Except String (Nat × List String) :=
  let acc := processRows 0 rows
  if acc.1.isEmpty then
    Except.error ("Failed to import any logs. Errors:\n"
      ++ String.intercalate "\n" acc.2)
  else
    Except.ok (acc.1.length, acc.2)

/-- A row missing its `case_id`. -/
def badRow : CsvRow :=
  { case_id := none, officer_id := some "OFF123", step_name := some "Credit Check",
    action := none, timestamp := some "2025-01-15 09:00:00" }

/-- C9 counterexample: a batch consisting of a single malformed record is
rejected — the run is aborted with an error response rather than returning a
success payload with an error count. -/
theorem upload_all_malformed_aborts_cex :
    uploadOutcome [badRow]
      = Except.error "Failed to import any logs. Errors:\nRow 2: Missing case_id" ∧
    (uploadOutcome [badRow]).isOk = false := by
  constructor <;> rfl

/-- C9 amended: malformed rows are isolated — every well-formed row is saved
(in order) no matter which other rows are malformed, each malformed row
contributes exactly one collected error, and the run is rejected only in the
degenerate case that no row at all is well-formed. -/
theorem upload_malformed_isolated (rows : List CsvRow) :
    (∀ i, (processRows i rows).1 = rows.filterMap rowToLog) ∧
    (∀ i, (processRows i rows).2.length
      = rows.countP (fun r => (rowToLog r).isNone)) ∧
    ((uploadOutcome rows).isOk = !(rows.filterMap rowToLog).isEmpty) := by
  have hsaved : ∀ i, (processRows i rows).1 = rows.filterMap rowToLog := by
    induction rows with
    | nil => intro i; rfl
    | cons r rest ih =>
      intro i
      rw [processRows, List.filterMap_cons]
      cases h : rowToLog r with
      | some log => simp [h, ih (i + 1)]
      | none => simp [h, ih (i + 1)]
  have herr : ∀ i, (processRows i rows).2.length
      = rows.countP (fun r => (rowToLog r).isNone) := by
    clear hsaved
    induction rows with
    | nil => intro i; rfl
    | cons r rest ih =>
      intro i
      rw [processRows, List.countP_cons]
      cases h : rowToLog r with
      | some log => simp [h, ih (i + 1)]
      | none => simp [h, ih (i + 1)]
  refine ⟨hsaved, herr, ?_⟩
  unfold uploadOutcome
  dsimp only
  rw [hsaved 0]
  by_cases h : (rows.filterMap rowToLog).isEmpty
  · rw [if_pos h, h]
    rfl
  · rw [if_neg h]
    simp only [Except.isOk]
    rw [Bool.not_eq_true] at h
    rw [h]
    rfl

end VsDemo
